import Mathlib

set_option linter.unreachableTactic false
set_option linter.unusedTactic false

/-!
# Verification of the adaptive_type core

Shallow embedding of the `adaptive` C++ headers:

* `src/include/internal/technique_backend_scalar.h`
* `src/include/internal/technique_backend_mmx.h`
* `src/include/internal/technique_backend_sse.h`
* `src/include/internal/technique_backend_avx.h`
* `src/include/adaptive_techniq.h`
* `src/include/adaptive_integer.h`

A bound integer width (the template parameter `TINT`) is modelled by `Ty`,
carrying its byte size and signedness.  A machine value of such a type is an
`Int` inside the type's representable range; storing an arbitrary integer
result into the type (what C++ fixed-width arithmetic and `static_cast` do)
is modelled by `wrap`, which reduces modulo `2 ^ bits` and reinterprets the
bit pattern per two's complement when the type is signed.

Vector intrinsics are modelled at the level of lane bit patterns: a
`set1`-style broadcast converts the operand to the lane-width bit pattern
(`pat`), lane-wise operations act modulo `2 ^ lane-width`, and lane
extraction followed by the `static_cast` back to the value type is `wrap`.

Division by zero is a fatal trap in every backend (`a / b` with no guard);
the embedding returns `Option Int`, with `none` standing for the trap.  The
signed `repMin / -1` overflow corner traps the same way at the 4- and
8-byte widths, while at the 1- and 2-byte widths (operands promoted to
`int`) the exact quotient wraps on the conversion back to the value type.
-/

namespace Adaptive

/-- A bound integer width: the byte size and signedness of the C++ template
parameter `TINT` (e.g. `uint8_t` is `⟨1, false⟩`, `int64_t` is `⟨8, true⟩`). -/
structure Ty where
  bytes : Nat
  signed : Bool
deriving DecidableEq, Repr

/-- Number of value bits of the type. -/
def bits (t : Ty) : Nat := 8 * t.bytes

/-- The smallest representable value of the type. -/
def repMin (t : Ty) : Int :=
  if t.signed then -((2 : Int) ^ (bits t - 1)) else 0

/-- The largest representable value of the type. -/
def repMax (t : Ty) : Int :=
  if t.signed then (2 : Int) ^ (bits t - 1) - 1 else (2 : Int) ^ bits t - 1

/-- Storing an integer into the type: reduce the bit pattern modulo
`2 ^ bits` and, for a signed type, reinterpret it as two's complement.
This models both C++ fixed-width wraparound arithmetic on the value type and
a `static_cast` back to the value type. -/
def wrap (t : Ty) (x : Int) : Int :=
  if t.signed = true ∧ (2 : Int) ^ (bits t - 1) ≤ x % (2 : Int) ^ bits t then
    x % (2 : Int) ^ bits t - (2 : Int) ^ bits t
  else x % (2 : Int) ^ bits t

/-- The `w`-bit lane bit pattern of a value, as produced by a `set1`-style
broadcast of the value into `w`-bit lanes (sign extension for negative
values is exactly reduction modulo `2 ^ w`). -/
def pat (w : Nat) (x : Int) : Int := x % (2 : Int) ^ w

/-- uint8_t -/
def u8ty : Ty := ⟨1, false⟩
/-- uint16_t -/
def u16ty : Ty := ⟨2, false⟩
/-- uint32_t -/
def u32ty : Ty := ⟨4, false⟩
/-- uint64_t -/
def u64ty : Ty := ⟨8, false⟩
/-- int8_t -/
def i8ty : Ty := ⟨1, true⟩
/-- int16_t -/
def i16ty : Ty := ⟨2, true⟩
/-- int32_t -/
def i32ty : Ty := ⟨4, true⟩
/-- int64_t -/
def i64ty : Ty := ⟨8, true⟩

/-! ## Scalar backend (`technique_backend_scalar.h`)

`add`/`sub`/`mul` are `a + b`, `a - b`, `a * b` on the value type: native
fixed-width modular arithmetic, i.e. `wrap` of the exact result.  `div` is
`a / b`: C++ integer division truncates toward zero (`Int.tdiv`), and a zero
divisor is an unguarded fatal trap, modelled as `none`. -/

/-- Embeds `technique_backend_scalar::add`: `return a + b;` on the value type. -/
def scalar_add (t : Ty) (a b : Int) : Int := wrap t (a + b)

/-- Embeds `technique_backend_scalar::sub`: `return a - b;` on the value type. -/
def scalar_sub (t : Ty) (a b : Int) : Int := wrap t (a - b)

/-- Embeds `technique_backend_scalar::mul`: `return a * b;` on the value type. -/
def scalar_mul (t : Ty) (a b : Int) : Int := wrap t (a * b)

/-- Embeds `technique_backend_scalar::div`: `return a / b;` — truncating
division with no divide-by-zero guard (`none` models the fatal trap).  The
quotient is stored back into the value type: for the signed widths narrower
than `int` (1 and 2 bytes) the operands are promoted to `int`, so the one
overflowing quotient `repMin / -1` is computed exactly and wrapped by the
conversion back (`wrap`), while at the 4- and 8-byte signed widths
`repMin / -1` overflows the division itself and raises the same fatal
condition as a zero divisor (`none`). -/
def scalar_div (t : Ty) (a b : Int) : Option Int :=
  if b = 0 then none
  else if t.signed = true ∧ 4 ≤ t.bytes ∧ a = repMin t ∧ b = -1 then none
  else some (wrap t (a.tdiv b))

/-! ## MMX backend (`technique_backend_mmx.h`)

Broadcast-then-reduce over 64-bit MMX registers.  For the 1-, 2- and 4-byte
branches the scalar is read back with `_mm_cvtsi64_si32`, which returns the
low 32 bits of the register — i.e. the lane-0 result replicated across
`32 / lane-width` lanes (multiplier `0x01010101` for 8-bit lanes, `0x00010001`
for 16-bit lanes); the final `static_cast` to the value type (`wrap`) keeps
only the low lane.  The 8-byte branch uses `_mm_add_si64`/`_mm_sub_si64` and
`_mm_cvtm64_si64`.  Widths other than 1/2/4/8 fall through to the trailing
`else`, which computes plain scalar arithmetic. -/

/-- Embeds `technique_backend_mmx::add`. -/
def mmx_add (t : Ty) (a b : Int) : Int :=
  if t.bytes = 1 then wrap t (pat 8 (pat 8 a + pat 8 b) * 16843009)
  else if t.bytes = 2 then wrap t (pat 16 (pat 16 a + pat 16 b) * 65537)
  else if t.bytes = 4 then wrap t (pat 32 (pat 32 a + pat 32 b))
  else if t.bytes = 8 then wrap t (pat 64 (pat 64 a + pat 64 b))
  else wrap t (a + b)

/-- Embeds `technique_backend_mmx::sub`. -/
def mmx_sub (t : Ty) (a b : Int) : Int :=
  if t.bytes = 1 then wrap t (pat 8 (pat 8 a - pat 8 b) * 16843009)
  else if t.bytes = 2 then wrap t (pat 16 (pat 16 a - pat 16 b) * 65537)
  else if t.bytes = 4 then wrap t (pat 32 (pat 32 a - pat 32 b))
  else if t.bytes = 8 then wrap t (pat 64 (pat 64 a - pat 64 b))
  else wrap t (a - b)

/-- Embeds `technique_backend_mmx::mul`: the 1- and 2-byte branches widen both
operands to 16-bit lanes (`_mm_set1_pi16`) and use `_mm_mullo_pi16`; all
other widths use plain scalar multiplication. -/
def mmx_mul (t : Ty) (a b : Int) : Int :=
  if t.bytes = 1 then wrap t (pat 16 (pat 16 a * pat 16 b) * 65537)
  else if t.bytes = 2 then wrap t (pat 16 (pat 16 a * pat 16 b) * 65537)
  else wrap t (a * b)

/-- Embeds `technique_backend_mmx::div`: `return a / b;` — textually identical
to the scalar backend's `div`, not vectorized, with the same fatal zero
divisor and the same signed `repMin / -1` corner. -/
def mmx_div (t : Ty) (a b : Int) : Option Int :=
  if b = 0 then none
  else if t.signed = true ∧ 4 ≤ t.bytes ∧ a = repMin t ∧ b = -1 then none
  else some (wrap t (a.tdiv b))

/-! ## SSE backend (`technique_backend_sse.h`)

Broadcast-then-reduce over 128-bit registers; lane 0 is read back with
`_mm_extract_epi8/16/32/64` (zero-extended lane pattern) and cast to the
value type.  `add`/`sub` handle widths 1/2/4/8 and otherwise return the
zero-initialized `_result`; `mul` widens 1-byte operands to 16-bit lanes and
falls back to plain scalar multiplication for widths other than 1/2/4. -/

/-- Embeds `technique_backend_sse::add`. -/
def sse_add (t : Ty) (a b : Int) : Int :=
  if t.bytes = 1 then wrap t (pat 8 (pat 8 a + pat 8 b))
  else if t.bytes = 2 then wrap t (pat 16 (pat 16 a + pat 16 b))
  else if t.bytes = 4 then wrap t (pat 32 (pat 32 a + pat 32 b))
  else if t.bytes = 8 then wrap t (pat 64 (pat 64 a + pat 64 b))
  else 0

/-- Embeds `technique_backend_sse::sub`. -/
def sse_sub (t : Ty) (a b : Int) : Int :=
  if t.bytes = 1 then wrap t (pat 8 (pat 8 a - pat 8 b))
  else if t.bytes = 2 then wrap t (pat 16 (pat 16 a - pat 16 b))
  else if t.bytes = 4 then wrap t (pat 32 (pat 32 a - pat 32 b))
  else if t.bytes = 8 then wrap t (pat 64 (pat 64 a - pat 64 b))
  else 0

/-- Embeds `technique_backend_sse::mul`. -/
def sse_mul (t : Ty) (a b : Int) : Int :=
  if t.bytes = 1 then wrap t (pat 16 (pat 16 a * pat 16 b))
  else if t.bytes = 2 then wrap t (pat 16 (pat 16 a * pat 16 b))
  else if t.bytes = 4 then wrap t (pat 32 (pat 32 a * pat 32 b))
  else wrap t (a * b)

/-- Embeds `technique_backend_sse::div`: `return a / b;` — textually identical
to the scalar backend's `div`, not vectorized, with the same fatal zero
divisor and the same signed `repMin / -1` corner. -/
def sse_div (t : Ty) (a b : Int) : Option Int :=
  if b = 0 then none
  else if t.signed = true ∧ 4 ≤ t.bytes ∧ a = repMin t ∧ b = -1 then none
  else some (wrap t (a.tdiv b))

/-! ## AVX backend (`technique_backend_avx.h`)

Broadcast-then-reduce over 256-bit registers; lane 0 is read back with
`_mm256_extract_epi8/16/32/64` and assigned to the value type.  `add` and
`mul` handle widths 1/2/4/8 and otherwise return the zero-initialized
`_result`.  `sub` additionally contains a `sizeof(TINT) == 16` branch that
reads fields `low`/`hight` which exist on no value type in the repository
(the dead 128-bit extension point noted in the spec); it is inapplicable to
the scalar value types modelled here and is omitted, so widths other than
1/2/4/8 return the zero-initialized `_result`. -/

/-- Embeds `technique_backend_avx::add`. -/
def avx_add (t : Ty) (a b : Int) : Int :=
  if t.bytes = 1 then wrap t (pat 8 (pat 8 a + pat 8 b))
  else if t.bytes = 2 then wrap t (pat 16 (pat 16 a + pat 16 b))
  else if t.bytes = 4 then wrap t (pat 32 (pat 32 a + pat 32 b))
  else if t.bytes = 8 then wrap t (pat 64 (pat 64 a + pat 64 b))
  else 0

/-- Embeds `technique_backend_avx::sub`. -/
def avx_sub (t : Ty) (a b : Int) : Int :=
  if t.bytes = 1 then wrap t (pat 8 (pat 8 a - pat 8 b))
  else if t.bytes = 2 then wrap t (pat 16 (pat 16 a - pat 16 b))
  else if t.bytes = 4 then wrap t (pat 32 (pat 32 a - pat 32 b))
  else if t.bytes = 8 then wrap t (pat 64 (pat 64 a - pat 64 b))
  else 0

/-- Embeds `technique_backend_avx::mul`: 1- and 2-byte operands are widened to
16-bit lanes (`_mm256_set1_epi16` / `_mm256_mullo_epi16`); the 8-byte branch
uses the 64-bit lane-wise low multiply `_mm256_mullo_epi64`. -/
def avx_mul (t : Ty) (a b : Int) : Int :=
  if t.bytes = 1 then wrap t (pat 16 (pat 16 a * pat 16 b))
  else if t.bytes = 2 then wrap t (pat 16 (pat 16 a * pat 16 b))
  else if t.bytes = 4 then wrap t (pat 32 (pat 32 a * pat 32 b))
  else if t.bytes = 8 then wrap t (pat 64 (pat 64 a * pat 64 b))
  else 0

/-- Embeds `technique_backend_avx::div`: `return a / b;` — textually identical
to the scalar backend's `div`, not vectorized, with the same fatal zero
divisor and the same signed `repMin / -1` corner. -/
def avx_div (t : Ty) (a b : Int) : Option Int :=
  if b = 0 then none
  else if t.signed = true ∧ 4 ≤ t.bytes ∧ a = repMin t ∧ b = -1 then none
  else some (wrap t (a.tdiv b))

/-! ## Technique registry (`adaptive_techniq.h`) -/

/-- The `techn_type` enumeration.  Enumerators other than `Scalar` and
`internal` are declared in the source under the capability macro of their
tier (`__MMX__`, `__SSE2__`, `__AVX2__`, `__AVX512__`, `__NEON__`,
`__GPU__`); the gating is modelled in the functions consuming them via
`Flags`. -/
inductive techn_type where
  | Scalar
  | MMX
  | SSE
  | AVX
  | AVX512
  | NEON
  | OpenCL
  | Vulkan
  | internal
deriving DecidableEq, Repr

/-- The build-time capability macros: `__MMX__`, `__SSE2__`, `__AVX2__`,
`__AVX512__`, `__NEON__`, `__GPU__`. -/
structure Flags where
  mmx : Bool
  sse : Bool
  avx : Bool
  avx512 : Bool
  neon : Bool
  gpu : Bool
deriving DecidableEq, Repr

/-- Embeds `technt2string`: `_res` starts as `"Scalar"`, the `switch` has one
`case` per technique compiled in under its capability macro, and the
`default` arm sets `"Scalar"` again. -/
def technt2string (f : Flags) (tech : techn_type) : String :=
  match tech with
  | .MMX => if f.mmx then "MMX" else "Scalar"
  | .SSE => if f.sse then "SSE" else "Scalar"
  | .AVX => if f.avx then "AVX" else "Scalar"
  | .AVX512 => if f.avx512 then "AVX512" else "Scalar"
  | .NEON => if f.neon then "NEON" else "Scalar"
  | .OpenCL => if f.gpu then "OpenCL" else "Scalar"
  | .Vulkan => if f.gpu then "Vulkan" else "Scalar"
  | _ => "Scalar"

/-- Embeds `internal::detected_techniq_used<TINT>()`: `_result` starts as
`internal`, and since it equals `internal` it is replaced by the width
default: `sizeof(TINT) <= 4` → `Scalar`, `<= 8` → `SSE`, otherwise `AVX`.
The argument is `sizeof(TINT)` in bytes. -/
def detected_techniq_used (size : Nat) : techn_type :=
  let r := techn_type.internal
  if r = techn_type.internal then
    if size ≤ 4 then techn_type.Scalar
    else if size ≤ 8 then techn_type.SSE
    else techn_type.AVX
  else r

/-! ## Technique selector (`adaptive_integer.h`, `technique_selector`) -/

/-- The backend classes a `technique_selector` specialization can name. -/
inductive Backend where
  | scalar
  | mmx
  | sse
  | avx
deriving DecidableEq, Repr

/-- Embeds `technique_selector<TINT, TTECH>::type`.  C++ picks the most specialized
matching template: the full `(type, technique)` specializations
(`<uint64_t, SSE>` and `<int64_t, SSE>` → `technique_backend_sse`;
`<uint8_t|uint16_t|uint32_t|int8_t|int16_t|int32_t, Scalar>` →
`technique_backend_scalar`, all unconditionally compiled) win over the
partial per-technique specializations, which exist only under the tier's
capability macro (`MMX` → mmx backend, `SSE` → sse, `AVX` → avx, `AVX512` →
the avx backend); `Scalar` and `internal` have unconditional partial
specializations naming the scalar backend, and everything else falls to the
primary template, `technique_backend_scalar`. -/
def technique_selector (f : Flags) (w : Ty) (tech : techn_type) : Backend :=
  if (w = u64ty ∨ w = i64ty) ∧ tech = techn_type.SSE then Backend.sse
  else if (w = u8ty ∨ w = u16ty ∨ w = u32ty ∨ w = i8ty ∨ w = i16ty ∨ w = i32ty)
      ∧ tech = techn_type.Scalar then Backend.scalar
  else
    match tech with
    | .Scalar => Backend.scalar
    | .internal => Backend.scalar
    | .MMX => if f.mmx then Backend.mmx else Backend.scalar
    | .SSE => if f.sse then Backend.sse else Backend.scalar
    | .AVX => if f.avx then Backend.avx else Backend.scalar
    | .AVX512 => if f.avx512 then Backend.avx else Backend.scalar
    | _ => Backend.scalar

/-- Dispatch of `backend_type::add` to the selected backend class. -/
def backend_add (bk : Backend) (t : Ty) (a b : Int) : Int :=
  match bk with
  | .scalar => scalar_add t a b
  | .mmx => mmx_add t a b
  | .sse => sse_add t a b
  | .avx => avx_add t a b

/-- Dispatch of `backend_type::sub` to the selected backend class. -/
def backend_sub (bk : Backend) (t : Ty) (a b : Int) : Int :=
  match bk with
  | .scalar => scalar_sub t a b
  | .mmx => mmx_sub t a b
  | .sse => sse_sub t a b
  | .avx => avx_sub t a b

/-! ## Adaptive value facade (`adaptive_integer.h`, `adaptive_number`) -/

/-- Embeds `adaptive_number<TINT, TTECH>`: owns one scalar of the bound width;
the width and technique are type parameters fixed at compile time. -/
structure adaptive_number (t : Ty) (tech : techn_type) where
  m_tiValue : Int
deriving DecidableEq, Repr

/-- Embeds `adaptive_number::value()`: returns `m_tiValue`. -/
def adn_value {t : Ty} {tech : techn_type} (x : adaptive_number t tech) : Int :=
  x.m_tiValue

/-- Embeds `adaptive_number::get_techniq()`: returns the template parameter
`TTECH`. -/
def adn_get_techniq {t : Ty} {tech : techn_type} (_x : adaptive_number t tech) :
    techn_type :=
  tech

/-- Models `adaptive_number::set(v)` — `m_tiValue = v;` — as the plain
value update that the spec (§4.3) and the member's own documentation
describe.  The source declares `set` as a `const` member function assigning
the non-`mutable` member `m_tiValue` (adaptive_integer.h:313), which is
ill-formed whenever `set` is instantiated, so no call to the real member
compiles; the `const` qualifier is treated as the slip it is and dropped
here. -/
def adn_set {t : Ty} {tech : techn_type} (_x : adaptive_number t tech) (v : Int) :
    adaptive_number t tech :=
  ⟨v⟩

/-- Embeds `adaptive_number::operator++(int)`:
`m_tiValue = backend_type::add(m_tiValue, 1); return *this;`.
Returns the pair (updated object, returned value); the source returns
`*this` after the update, so both components hold the updated value. -/
def adn_inc (f : Flags) {t : Ty} {tech : techn_type} (x : adaptive_number t tech) :
    adaptive_number t tech × adaptive_number t tech :=
  let x' : adaptive_number t tech :=
    ⟨backend_add (technique_selector f t tech) t x.m_tiValue 1⟩
  (x', x')

/-- Embeds `adaptive_number::operator--(int)`:
`m_tiValue = backend_type::sub(m_tiValue, 1); return *this;`.
Returns the pair (updated object, returned value). -/
def adn_dec (f : Flags) {t : Ty} {tech : techn_type} (x : adaptive_number t tech) :
    adaptive_number t tech × adaptive_number t tech :=
  let x' : adaptive_number t tech :=
    ⟨backend_sub (technique_selector f t tech) t x.m_tiValue 1⟩
  (x', x')

/-- A build with every capability macro defined; used for concrete
instantiations. -/
def flagsAll : Flags := ⟨true, true, true, true, true, true⟩

/-! ## Definitions following the spec's words (for comparison theorems) -/

/-- Follows the spec's words (§6): the canonical display name of each
technique identifier. -/
def specTechName : techn_type → String
  | .Scalar => "Scalar"
  | .MMX => "MMX"
  | .SSE => "SSE"
  | .AVX => "AVX"
  | .AVX512 => "AVX512"
  | .NEON => "NEON"
  | .OpenCL => "OpenCL"
  | .Vulkan => "Vulkan"
  | .internal => "Scalar"

/-- Follows the spec's words (§6): whether a technique's capability is
compiled in on this build (the `internal` sentinel is never a renderable
technique). -/
def specTechAvailable (f : Flags) : techn_type → Bool
  | .Scalar => true
  | .MMX => f.mmx
  | .SSE => f.sse
  | .AVX => f.avx
  | .AVX512 => f.avx512
  | .NEON => f.neon
  | .OpenCL => f.gpu
  | .Vulkan => f.gpu
  | .internal => false

/-- Whether a `technique_selector` specialization for the given (width,
technique) pair is compiled into the build, read off the source's structure:
`Scalar` and `internal` have unconditional specializations, the
per-technique partial specializations exist under their tier's capability
macro, and `<uint64_t, SSE>` / `<int64_t, SSE>` exist unconditionally. -/
def hasSpec (f : Flags) (w : Ty) (tech : techn_type) : Prop :=
  tech = techn_type.Scalar ∨ tech = techn_type.internal ∨
  (tech = techn_type.MMX ∧ f.mmx = true) ∨
  (tech = techn_type.SSE ∧ (f.sse = true ∨ w = u64ty ∨ w = i64ty)) ∨
  (tech = techn_type.AVX ∧ f.avx = true) ∨
  (tech = techn_type.AVX512 ∧ f.avx512 = true)

instance (f : Flags) (w : Ty) (tech : techn_type) : Decidable (hasSpec f w tech) := by
  unfold hasSpec
  infer_instance

/-! ## Helper lemmas -/

/-- Lemma: `wrap` only looks at the residue modulo `2 ^ bits`. -/
lemma wrap_congr (t : Ty) {x y : Int}
    (h : x % (2 : Int) ^ bits t = y % (2 : Int) ^ bits t) : wrap t x = wrap t y := by
  unfold wrap
  rw [h]

/-- Reading a lane of width `m` back through a cast to a narrower width `n`
dividing it preserves products. -/
lemma lane_mul_emod (a b m n : Int) (hnm : n ∣ m) :
    a % m * (b % m) % m % n = a * b % n := by
  rw [Int.emod_emod_of_dvd _ hnm, Int.mul_emod (a % m) (b % m) n,
    Int.emod_emod_of_dvd a hnm, Int.emod_emod_of_dvd b hnm, ← Int.mul_emod]

/-- As `lane_mul_emod`, but with the lane-0 value replicated by a factor
that is `1` modulo the target width (the `_mm_cvtsi64_si32` read-back). -/
lemma lane_mul_emod_rep (a b m n k : Int) (hnm : n ∣ m) (hk : k % n = 1) :
    a % m * (b % m) % m * k % n = a * b % n := by
  rw [Int.mul_emod _ k n, hk, mul_one, Int.emod_emod_of_dvd _ (dvd_refl n),
    lane_mul_emod a b m n hnm]

/-- Lemma: `wrap` is the exact result modulo `2 ^ bits`. -/
lemma wrap_emod (t : Ty) (x : Int) :
    wrap t x % (2 : Int) ^ bits t = x % (2 : Int) ^ bits t := by
  unfold wrap
  split_ifs with hc
  · rw [Int.sub_emod, Int.emod_self, sub_zero, Int.emod_emod_of_dvd x (dvd_refl _),
      Int.emod_emod_of_dvd x (dvd_refl _)]
  · exact Int.emod_emod_of_dvd x (dvd_refl _)

/-- Lemma: `wrap` lands inside the representable range of the type. -/
lemma wrap_bounds (t : Ty) (x : Int) :
    repMin t ≤ wrap t x ∧ wrap t x ≤ repMax t := by
  unfold wrap repMin repMax
  have hNpos : (0 : Int) < 2 ^ bits t := pow_pos (by norm_num) _
  have hm0 : 0 ≤ x % 2 ^ bits t := Int.emod_nonneg x (by positivity)
  have hm1 : x % 2 ^ bits t < 2 ^ bits t := Int.emod_lt_of_pos x hNpos
  have hH : (1 : Int) ≤ 2 ^ (bits t - 1) := one_le_pow₀ (by norm_num)
  have hHN : (2 : Int) ^ bits t ≤ 2 * 2 ^ (bits t - 1) := by
    rcases Nat.eq_zero_or_pos (bits t) with hb | hb
    · rw [hb]
      norm_num
    · have hp := pow_succ (2 : Int) (bits t - 1)
      rw [Nat.sub_add_cancel hb] at hp
      omega
  rcases hs : t.signed with _ | _
  · simp only [hs, Bool.false_eq_true, false_and, if_false, Bool.false_eq_true,
      if_false]
    omega
  · simp only [hs, true_and, if_true]
    split_ifs with hc
    · constructor <;> omega
    · constructor <;> omega

/-- Lemma: `wrap` is the identity on representable values (widths of at least one
byte). -/
lemma wrap_eq_of_range (t : Ty) (x : Int) (hb : t.bytes ≠ 0)
    (h1 : repMin t ≤ x) (h2 : x ≤ repMax t) : wrap t x = x := by
  have hbits : 1 ≤ bits t := by
    unfold bits
    omega
  have hHN : (2 : Int) ^ bits t = 2 * 2 ^ (bits t - 1) := by
    have hp := pow_succ (2 : Int) (bits t - 1)
    rw [Nat.sub_add_cancel hbits] at hp
    omega
  have hH : (1 : Int) ≤ 2 ^ (bits t - 1) := one_le_pow₀ (by norm_num)
  unfold wrap
  simp only [repMin, repMax] at h1 h2
  rcases hs : t.signed with _ | _
  · simp only [hs, Bool.false_eq_true, false_and, if_false] at *
    exact Int.emod_eq_of_lt h1 (by omega)
  · simp only [hs, if_true, true_and] at *
    rcases le_or_lt 0 x with hx | hx
    · have hmx : x % 2 ^ bits t = x := Int.emod_eq_of_lt hx (by omega)
      rw [hmx]
      split_ifs with hc
      · omega
      · rfl
    · have hadd : (x + 2 ^ bits t) % 2 ^ bits t = x % 2 ^ bits t := by
        have h := Int.add_mul_emod_self_left x ((2 : Int) ^ bits t) 1
        rw [mul_one] at h
        exact h
      have hmx : x % 2 ^ bits t = x + 2 ^ bits t := by
        rw [← hadd]
        exact Int.emod_eq_of_lt (by omega) (by omega)
      rw [hmx]
      split_ifs with hc
      · omega
      · omega

/-- A lane of width `m` read back modulo a width `n` dividing it preserves
sums. -/
lemma lane_add_emod (a b m n : Int) (hnm : n ∣ m) :
    (a % m + b % m) % m % n = (a + b) % n := by
  rw [Int.emod_emod_of_dvd _ hnm, Int.add_emod (a % m) (b % m) n,
    Int.emod_emod_of_dvd a hnm, Int.emod_emod_of_dvd b hnm, ← Int.add_emod]

/-- A lane of width `m` read back modulo a width `n` dividing it preserves
differences. -/
lemma lane_sub_emod (a b m n : Int) (hnm : n ∣ m) :
    (a % m - b % m) % m % n = (a - b) % n := by
  rw [Int.emod_emod_of_dvd _ hnm, Int.sub_emod (a % m) (b % m) n,
    Int.emod_emod_of_dvd a hnm, Int.emod_emod_of_dvd b hnm, ← Int.sub_emod]

/-- Replication of a lane by a factor that is `1` modulo the read-back
width is invisible modulo that width. -/
lemma lane_rep (x n k : Int) (hk : k % n = 1) : x * k % n = x % n := by
  rw [Int.mul_emod, hk, mul_one, Int.emod_emod_of_dvd _ (dvd_refl n)]

/-- Lemma: for in-range operands with a nonzero divisor, away from the
signed `repMin / -1` corner, the truncating quotient is itself in range
(so storing it back into the value type changes nothing). -/
lemma tdiv_in_range (t : Ty) (a b : Int) (hb0 : b ≠ 0)
    (ha1 : repMin t ≤ a) (ha2 : a ≤ repMax t)
    (hb1 : repMin t ≤ b) (hb2 : b ≤ repMax t)
    (hc : ¬(t.signed = true ∧ a = repMin t ∧ b = -1)) :
    repMin t ≤ a.tdiv b ∧ a.tdiv b ≤ repMax t := by
  have habs : (a.tdiv b).natAbs = a.natAbs / b.natAbs := Int.natAbs_tdiv a b
  have hdle : a.natAbs / b.natAbs ≤ a.natAbs := Nat.div_le_self _ _
  rcases hs : t.signed with _ | _
  · have hmin : repMin t = 0 := by simp [repMin, hs]
    have hmax : repMax t = 2 ^ bits t - 1 := by simp [repMax, hs]
    rw [hmin] at ha1 hb1
    rw [hmax] at ha2 hb2
    rw [hmin, hmax]
    have hq0 : 0 ≤ a.tdiv b := Int.tdiv_nonneg ha1 hb1
    omega
  · have hmin : repMin t = -(2 ^ (bits t - 1)) := by simp [repMin, hs]
    have hmax : repMax t = 2 ^ (bits t - 1) - 1 := by simp [repMax, hs]
    rw [hmin] at ha1 hb1
    rw [hmax] at ha2 hb2
    rw [hmin, hmax]
    have hH : (1 : Int) ≤ 2 ^ (bits t - 1) := one_le_pow₀ (by norm_num)
    have hq_ub : a.tdiv b ≤ 2 ^ (bits t - 1) := by omega
    refine ⟨by omega, ?_⟩
    rcases eq_or_lt_of_le hq_ub with hqH | hqlt
    · exfalso
      rcases Nat.lt_or_ge b.natAbs 2 with hB | hB
      · have hb' : b = 1 ∨ b = -1 := by omega
        rcases hb' with rfl | rfl
        · rw [Int.tdiv_one] at hqH
          omega
        · refine hc ⟨hs, ?_, rfl⟩
          rw [hmin]
          omega
      · have hlt := Nat.div_lt_self (show 0 < a.natAbs by omega) hB
        omega
    · omega

/-- The MMX backend's `add` agrees with the scalar backend at the widths
1/2/4/8 (and in fact at every width, via its scalar `else` branch). -/
lemma mmx_add_eq_scalar (t : Ty) (a b : Int) : mmx_add t a b = scalar_add t a b := by
  unfold mmx_add scalar_add
  split_ifs with h1 h2 h3 h4
  · apply wrap_congr
    simp only [pat, bits, h1]
    norm_num
    all_goals omega
  · apply wrap_congr
    simp only [pat, bits, h2]
    norm_num
    all_goals omega
  · apply wrap_congr
    simp only [pat, bits, h3]
    norm_num
    all_goals omega
  · apply wrap_congr
    simp only [pat, bits, h4]
    norm_num
    all_goals omega
  · rfl

/-- The MMX backend's `sub` agrees with the scalar backend at every width. -/
lemma mmx_sub_eq_scalar (t : Ty) (a b : Int) : mmx_sub t a b = scalar_sub t a b := by
  unfold mmx_sub scalar_sub
  split_ifs with h1 h2 h3 h4
  · apply wrap_congr
    simp only [pat, bits, h1]
    norm_num
    all_goals omega
  · apply wrap_congr
    simp only [pat, bits, h2]
    norm_num
    all_goals omega
  · apply wrap_congr
    simp only [pat, bits, h3]
    norm_num
    all_goals omega
  · apply wrap_congr
    simp only [pat, bits, h4]
    norm_num
    all_goals omega
  · rfl

/-- The MMX backend's `mul` agrees with the scalar backend at every width:
the 16-bit widening branches truncate back to the bound width. -/
lemma mmx_mul_eq_scalar (t : Ty) (a b : Int) : mmx_mul t a b = scalar_mul t a b := by
  unfold mmx_mul scalar_mul
  split_ifs with h1 h2
  · apply wrap_congr
    simp only [pat, bits, h1]
    norm_num
    all_goals
      have h9 := lane_mul_emod a b 65536 256 (by norm_num)
      omega
  · apply wrap_congr
    simp only [pat, bits, h2]
    norm_num
    all_goals
      have h9 := lane_mul_emod a b 65536 65536 dvd_rfl
      omega
  · rfl

/-- The SSE backend's `add` agrees with the scalar backend at the widths
1/2/4/8. -/
lemma sse_add_eq_scalar (t : Ty)
    (h : t.bytes = 1 ∨ t.bytes = 2 ∨ t.bytes = 4 ∨ t.bytes = 8) (a b : Int) :
    sse_add t a b = scalar_add t a b := by
  unfold sse_add scalar_add
  split_ifs with h1 h2 h3 h4
  · apply wrap_congr
    simp only [pat, bits, h1]
    norm_num
    all_goals omega
  · apply wrap_congr
    simp only [pat, bits, h2]
    norm_num
    all_goals omega
  · apply wrap_congr
    simp only [pat, bits, h3]
    norm_num
    all_goals omega
  · apply wrap_congr
    simp only [pat, bits, h4]
    norm_num
    all_goals omega
  · simp only [h1, h2, h3, h4, or_self, false_or] at h

/-- The SSE backend's `sub` agrees with the scalar backend at the widths
1/2/4/8. -/
lemma sse_sub_eq_scalar (t : Ty)
    (h : t.bytes = 1 ∨ t.bytes = 2 ∨ t.bytes = 4 ∨ t.bytes = 8) (a b : Int) :
    sse_sub t a b = scalar_sub t a b := by
  unfold sse_sub scalar_sub
  split_ifs with h1 h2 h3 h4
  · apply wrap_congr
    simp only [pat, bits, h1]
    norm_num
    all_goals omega
  · apply wrap_congr
    simp only [pat, bits, h2]
    norm_num
    all_goals omega
  · apply wrap_congr
    simp only [pat, bits, h3]
    norm_num
    all_goals omega
  · apply wrap_congr
    simp only [pat, bits, h4]
    norm_num
    all_goals omega
  · simp only [h1, h2, h3, h4, or_self, false_or] at h

/-- The SSE backend's `mul` agrees with the scalar backend at every width:
widths 1/2/4 go through lanes, everything else through the scalar `else`
branch. -/
lemma sse_mul_eq_scalar (t : Ty) (a b : Int) : sse_mul t a b = scalar_mul t a b := by
  unfold sse_mul scalar_mul
  split_ifs with h1 h2 h3
  · apply wrap_congr
    simp only [pat, bits, h1]
    norm_num
    all_goals
      have h9 := lane_mul_emod a b 65536 256 (by norm_num)
      omega
  · apply wrap_congr
    simp only [pat, bits, h2]
    norm_num
    all_goals
      have h9 := lane_mul_emod a b 65536 65536 dvd_rfl
      omega
  · apply wrap_congr
    simp only [pat, bits, h3]
    norm_num
    all_goals
      have h9 := lane_mul_emod a b 4294967296 4294967296 dvd_rfl
      omega
  · rfl

/-- The AVX backend's `add` agrees with the scalar backend at the widths
1/2/4/8. -/
lemma avx_add_eq_scalar (t : Ty)
    (h : t.bytes = 1 ∨ t.bytes = 2 ∨ t.bytes = 4 ∨ t.bytes = 8) (a b : Int) :
    avx_add t a b = scalar_add t a b := by
  unfold avx_add scalar_add
  split_ifs with h1 h2 h3 h4
  · apply wrap_congr
    simp only [pat, bits, h1]
    norm_num
    all_goals omega
  · apply wrap_congr
    simp only [pat, bits, h2]
    norm_num
    all_goals omega
  · apply wrap_congr
    simp only [pat, bits, h3]
    norm_num
    all_goals omega
  · apply wrap_congr
    simp only [pat, bits, h4]
    norm_num
    all_goals omega
  · simp only [h1, h2, h3, h4, or_self, false_or] at h

/-- The AVX backend's `sub` agrees with the scalar backend at the widths
1/2/4/8. -/
lemma avx_sub_eq_scalar (t : Ty)
    (h : t.bytes = 1 ∨ t.bytes = 2 ∨ t.bytes = 4 ∨ t.bytes = 8) (a b : Int) :
    avx_sub t a b = scalar_sub t a b := by
  unfold avx_sub scalar_sub
  split_ifs with h1 h2 h3 h4
  · apply wrap_congr
    simp only [pat, bits, h1]
    norm_num
    all_goals omega
  · apply wrap_congr
    simp only [pat, bits, h2]
    norm_num
    all_goals omega
  · apply wrap_congr
    simp only [pat, bits, h3]
    norm_num
    all_goals omega
  · apply wrap_congr
    simp only [pat, bits, h4]
    norm_num
    all_goals omega
  · simp only [h1, h2, h3, h4, or_self, false_or] at h

/-- The AVX backend's `mul` agrees with the scalar backend at the widths
1/2/4/8. -/
lemma avx_mul_eq_scalar (t : Ty)
    (h : t.bytes = 1 ∨ t.bytes = 2 ∨ t.bytes = 4 ∨ t.bytes = 8) (a b : Int) :
    avx_mul t a b = scalar_mul t a b := by
  unfold avx_mul scalar_mul
  split_ifs with h1 h2 h3 h4
  · apply wrap_congr
    simp only [pat, bits, h1]
    norm_num
    all_goals
      have h9 := lane_mul_emod a b 65536 256 (by norm_num)
      omega
  · apply wrap_congr
    simp only [pat, bits, h2]
    norm_num
    all_goals
      have h9 := lane_mul_emod a b 65536 65536 dvd_rfl
      omega
  · apply wrap_congr
    simp only [pat, bits, h3]
    norm_num
    all_goals
      have h9 := lane_mul_emod a b 4294967296 4294967296 dvd_rfl
      omega
  · apply wrap_congr
    simp only [pat, bits, h4]
    norm_num
    all_goals
      have h9 := lane_mul_emod a b 18446744073709551616 18446744073709551616 dvd_rfl
      omega
  · simp only [h1, h2, h3, h4, or_self, false_or] at h

/-- Every backend a `technique_selector` can resolve to computes `add` as
native modular addition at the widths 1/2/4/8. -/
lemma backend_add_wrap (bk : Backend) (t : Ty)
    (h : t.bytes = 1 ∨ t.bytes = 2 ∨ t.bytes = 4 ∨ t.bytes = 8) (a b : Int) :
    backend_add bk t a b = wrap t (a + b) := by
  cases bk
  · rfl
  · exact mmx_add_eq_scalar t a b
  · exact sse_add_eq_scalar t h a b
  · exact avx_add_eq_scalar t h a b

/-- Every backend a `technique_selector` can resolve to computes `sub` as
native modular subtraction at the widths 1/2/4/8. -/
lemma backend_sub_wrap (bk : Backend) (t : Ty)
    (h : t.bytes = 1 ∨ t.bytes = 2 ∨ t.bytes = 4 ∨ t.bytes = 8) (a b : Int) :
    backend_sub bk t a b = wrap t (a - b) := by
  cases bk
  · rfl
  · exact mmx_sub_eq_scalar t a b
  · exact sse_sub_eq_scalar t h a b
  · exact avx_sub_eq_scalar t h a b

/-! ## Claim theorems -/

/-- C1: for every bound integer width in {1,2,4,8} bytes and every pair
(a, b), each vector-tier backend (MMX, SSE, AVX) returns the same result as
the scalar backend for add, sub and mul; div is equivalent in every tier
because all tiers compute division by plain scalar division `a / b`. -/
theorem cross_tier_equivalence (t : Ty)
    (h : t.bytes = 1 ∨ t.bytes = 2 ∨ t.bytes = 4 ∨ t.bytes = 8) (a b : Int) :
    (mmx_add t a b = scalar_add t a b ∧ mmx_sub t a b = scalar_sub t a b ∧
      mmx_mul t a b = scalar_mul t a b) ∧
    (sse_add t a b = scalar_add t a b ∧ sse_sub t a b = scalar_sub t a b ∧
      sse_mul t a b = scalar_mul t a b) ∧
    (avx_add t a b = scalar_add t a b ∧ avx_sub t a b = scalar_sub t a b ∧
      avx_mul t a b = scalar_mul t a b) ∧
    (mmx_div t a b = scalar_div t a b ∧ sse_div t a b = scalar_div t a b ∧
      avx_div t a b = scalar_div t a b) :=
  ⟨⟨mmx_add_eq_scalar t a b, mmx_sub_eq_scalar t a b, mmx_mul_eq_scalar t a b⟩,
   ⟨sse_add_eq_scalar t h a b, sse_sub_eq_scalar t h a b, sse_mul_eq_scalar t a b⟩,
   ⟨avx_add_eq_scalar t h a b, avx_sub_eq_scalar t h a b, avx_mul_eq_scalar t h a b⟩,
   rfl, rfl, rfl⟩

/-- Witness for C1 at the one-byte unsigned width with a = 200, b = 70. -/
theorem cross_tier_equivalence_witness :
    (u8ty.bytes = 1 ∨ u8ty.bytes = 2 ∨ u8ty.bytes = 4 ∨ u8ty.bytes = 8) ∧
    ((mmx_add u8ty 200 70 = scalar_add u8ty 200 70 ∧
      mmx_sub u8ty 200 70 = scalar_sub u8ty 200 70 ∧
      mmx_mul u8ty 200 70 = scalar_mul u8ty 200 70) ∧
    (sse_add u8ty 200 70 = scalar_add u8ty 200 70 ∧
      sse_sub u8ty 200 70 = scalar_sub u8ty 200 70 ∧
      sse_mul u8ty 200 70 = scalar_mul u8ty 200 70) ∧
    (avx_add u8ty 200 70 = scalar_add u8ty 200 70 ∧
      avx_sub u8ty 200 70 = scalar_sub u8ty 200 70 ∧
      avx_mul u8ty 200 70 = scalar_mul u8ty 200 70) ∧
    (mmx_div u8ty 200 70 = scalar_div u8ty 200 70 ∧
      sse_div u8ty 200 70 = scalar_div u8ty 200 70 ∧
      avx_div u8ty 200 70 = scalar_div u8ty 200 70)) :=
  ⟨Or.inl rfl, cross_tier_equivalence u8ty (Or.inl rfl) 200 70⟩

/-- C2: the scalar backend's add, sub and mul implement native fixed-width
modular arithmetic with no overflow checks: each result is congruent to the
exact integer result modulo `2 ^ bits` and lies in the bound width's
representable range (two's complement for signed types); in particular,
for 8-bit unsigned add(250, 10) = 4, for 8-bit signed add(127, 1) = -128,
and for 8-bit unsigned mul(200, 200) = 64. -/
theorem scalar_modular_arithmetic :
    (∀ (t : Ty) (a b : Int),
      scalar_add t a b % (2 : Int) ^ bits t = (a + b) % (2 : Int) ^ bits t ∧
      repMin t ≤ scalar_add t a b ∧ scalar_add t a b ≤ repMax t) ∧
    (∀ (t : Ty) (a b : Int),
      scalar_sub t a b % (2 : Int) ^ bits t = (a - b) % (2 : Int) ^ bits t ∧
      repMin t ≤ scalar_sub t a b ∧ scalar_sub t a b ≤ repMax t) ∧
    (∀ (t : Ty) (a b : Int),
      scalar_mul t a b % (2 : Int) ^ bits t = (a * b) % (2 : Int) ^ bits t ∧
      repMin t ≤ scalar_mul t a b ∧ scalar_mul t a b ≤ repMax t) ∧
    scalar_add u8ty 250 10 = 4 ∧ scalar_add i8ty 127 1 = -128 ∧
    scalar_mul u8ty 200 200 = 64 :=
  ⟨fun t a b => ⟨wrap_emod t (a + b), (wrap_bounds t (a + b)).1, (wrap_bounds t (a + b)).2⟩,
   fun t a b => ⟨wrap_emod t (a - b), (wrap_bounds t (a - b)).1, (wrap_bounds t (a - b)).2⟩,
   fun t a b => ⟨wrap_emod t (a * b), (wrap_bounds t (a * b)).1, (wrap_bounds t (a * b)).2⟩,
   by decide, by decide, by decide⟩

/-- C3 counterexample: as frozen, the claim asserts the truncating quotient
for every pair with b ≠ 0 and a fatal condition only at a zero divisor; at
the in-range pair (repMin, -1) the 8-bit signed width instead wraps the
quotient back to repMin (div(-128, -1) = -128, not tdiv = 128), and the
32-bit signed width raises the fatal arithmetic condition (returns no
value) despite the nonzero divisor. -/
theorem div_claim_counterexample :
    scalar_div i8ty (-128) (-1) = some (-128) ∧
    (-128 : Int).tdiv (-1) = 128 ∧
    scalar_div i8ty (-128) (-1) ≠ some ((-128 : Int).tdiv (-1)) ∧
    scalar_div i32ty (-2147483648) (-1) = none :=
  ⟨by decide, by decide, by decide, by decide⟩

/-- C3 (amended): for every pair (a, b) of in-range values with b ≠ 0,
except the signed corner (repMin, -1), `div` is the integer division of a
by b truncating toward zero — the truncating quotient agrees with floor
division on nonnegative arguments and is odd in each argument, and
div(7,2) = 3, div(-7,2) = -3 — and for every a, div(a, 0) returns no value
(the `none` result models the platform's fatal arithmetic condition; there
is no divide-by-zero guard in the code).  At the corner (repMin, -1) the
8- and 16-bit signed widths, whose operands promote to `int`, wrap the
quotient back to repMin, while the 32- and 64-bit signed widths raise the
same fatal condition despite the nonzero divisor. -/
theorem div_truncating_and_fatal_at_zero :
    (∀ (t : Ty) (a : Int), scalar_div t a 0 = none) ∧
    (∀ (t : Ty) (a b : Int), t.bytes ≠ 0 → b ≠ 0 →
      repMin t ≤ a → a ≤ repMax t → repMin t ≤ b → b ≤ repMax t →
      ¬(t.signed = true ∧ a = repMin t ∧ b = -1) →
      scalar_div t a b = some (a.tdiv b)) ∧
    (∀ a b : Int, 0 ≤ a → 0 ≤ b → a.tdiv b = a / b) ∧
    (∀ a b : Int, (-a).tdiv b = -(a.tdiv b) ∧ a.tdiv (-b) = -(a.tdiv b)) ∧
    scalar_div i32ty 7 2 = some 3 ∧ scalar_div i32ty (-7) 2 = some (-3) ∧
    scalar_div i8ty (-128) (-1) = some (-128) ∧
    scalar_div i16ty (-32768) (-1) = some (-32768) ∧
    scalar_div i32ty (-2147483648) (-1) = none ∧
    scalar_div i64ty (-9223372036854775808) (-1) = none := by
  refine ⟨fun t a => rfl, fun t a b hbytes hb0 ha1 ha2 hb1 hb2 hc => ?_,
    fun a b ha hb => Int.tdiv_eq_ediv ha hb,
    fun a b => ⟨Int.neg_tdiv a b, Int.tdiv_neg a b⟩,
    by decide, by decide, by decide, by decide, by decide, by decide⟩
  unfold scalar_div
  rw [if_neg hb0, if_neg (fun hfull => hc ⟨hfull.1, hfull.2.2.1, hfull.2.2.2⟩)]
  have hr := tdiv_in_range t a b hb0 ha1 ha2 hb1 hb2 hc
  rw [wrap_eq_of_range t _ hbytes hr.1 hr.2]

/-- Witness for C3: at the in-range pair (9, 2) of the 32-bit signed width
all hypotheses hold and division returns the truncating quotient, which
agrees with floor division; at divisor 0 it returns no value. -/
theorem div_truncating_and_fatal_at_zero_witness :
    scalar_div i32ty 9 0 = none ∧
    (i32ty.bytes ≠ 0 ∧ (2 : Int) ≠ 0 ∧
      repMin i32ty ≤ 9 ∧ (9 : Int) ≤ repMax i32ty ∧
      repMin i32ty ≤ 2 ∧ (2 : Int) ≤ repMax i32ty ∧
      ¬(i32ty.signed = true ∧ (9 : Int) = repMin i32ty ∧ (2 : Int) = -1) ∧
      scalar_div i32ty 9 2 = some ((9 : Int).tdiv 2)) ∧
    ((0 : Int) ≤ 9 ∧ (0 : Int) ≤ 2 ∧ (9 : Int).tdiv 2 = (9 : Int) / 2) :=
  ⟨div_truncating_and_fatal_at_zero.1 i32ty 9,
   ⟨by decide, by decide, by decide, by decide, by decide, by decide, by decide,
    div_truncating_and_fatal_at_zero.2.1 i32ty 9 2 (by decide) (by decide)
      (by decide) (by decide) (by decide) (by decide) (by decide)⟩,
   ⟨by decide, by decide,
    div_truncating_and_fatal_at_zero.2.2.1 9 2 (by decide) (by decide)⟩⟩

/-- C4: the width-to-technique default map is a pure function of the type
size: size ≤ 4 bytes → Scalar, 4 < size ≤ 8 → SSE, size > 8 → AVX; it
never returns the `internal` sentinel. -/
theorem width_default_map (s : Nat) :
    (s ≤ 4 → detected_techniq_used s = techn_type.Scalar) ∧
    (4 < s → s ≤ 8 → detected_techniq_used s = techn_type.SSE) ∧
    (8 < s → detected_techniq_used s = techn_type.AVX) ∧
    detected_techniq_used s ≠ techn_type.internal := by
  unfold detected_techniq_used
  refine ⟨fun h4 => ?_, fun h4 h8 => ?_, fun h8 => ?_, ?_⟩ <;>
    simp only [if_pos rfl] <;> split_ifs <;> first | rfl | omega | simp

/-- Witness for C4 at sizes 4, 8 and 16. -/
theorem width_default_map_witness :
    detected_techniq_used 4 = techn_type.Scalar ∧
    detected_techniq_used 8 = techn_type.SSE ∧
    detected_techniq_used 16 = techn_type.AVX :=
  ⟨(width_default_map 4).1 (by decide),
   (width_default_map 8).2.1 (by decide) (by decide),
   (width_default_map 16).2.2.1 (by decide)⟩

set_option maxHeartbeats 2000000 in
/-- C5: technique resolution maps every (width, technique) pair to exactly
one backend type: `Scalar` and the `internal` sentinel resolve to the scalar
backend, a technique whose specialization is compiled in resolves to that
specialization's backend (MMX → mmx, SSE → sse, AVX → avx, AVX512 → the avx
backend), and a technique with no compiled-in specialization — including
the GPU identifiers — silently resolves to the scalar backend. -/
theorem selector_resolution (f : Flags) (w : Ty) :
    (∀ tech, tech = techn_type.Scalar ∨ tech = techn_type.internal →
      technique_selector f w tech = Backend.scalar) ∧
    (f.mmx = true → technique_selector f w techn_type.MMX = Backend.mmx) ∧
    (f.sse = true → technique_selector f w techn_type.SSE = Backend.sse) ∧
    (f.avx = true → technique_selector f w techn_type.AVX = Backend.avx) ∧
    (f.avx512 = true → technique_selector f w techn_type.AVX512 = Backend.avx) ∧
    (∀ tech, ¬ hasSpec f w tech → technique_selector f w tech = Backend.scalar) ∧
    technique_selector f w techn_type.OpenCL = Backend.scalar ∧
    technique_selector f w techn_type.Vulkan = Backend.scalar := by
  refine ⟨fun tech h => ?_, fun h => ?_, fun h => ?_, fun h => ?_, fun h => ?_,
    fun tech h => ?_, ?_, ?_⟩
  · rcases h with rfl | rfl <;> unfold technique_selector <;> split_ifs <;>
      first | rfl | simp_all
  · unfold technique_selector
    split_ifs <;> simp_all
  · unfold technique_selector
    split_ifs <;> simp_all
  · unfold technique_selector
    split_ifs <;> simp_all
  · unfold technique_selector
    split_ifs <;> simp_all
  · unfold hasSpec at h
    push_neg at h
    unfold technique_selector
    cases tech <;> split_ifs <;> simp_all
  · unfold technique_selector
    split_ifs <;> simp_all
  · unfold technique_selector
    split_ifs <;> simp_all

/-- Witness for C5 on a build with every capability: `internal` resolves to
scalar, MMX (available) to the mmx backend, NEON (no specialization) and
OpenCL to scalar. -/
theorem selector_resolution_witness :
    technique_selector flagsAll u8ty techn_type.internal = Backend.scalar ∧
    technique_selector flagsAll u8ty techn_type.MMX = Backend.mmx ∧
    (¬ hasSpec flagsAll u8ty techn_type.NEON ∧
      technique_selector flagsAll u8ty techn_type.NEON = Backend.scalar) ∧
    technique_selector flagsAll u8ty techn_type.OpenCL = Backend.scalar :=
  ⟨(selector_resolution flagsAll u8ty).1 techn_type.internal (Or.inr rfl),
   (selector_resolution flagsAll u8ty).2.1 rfl,
   ⟨by decide,
    (selector_resolution flagsAll u8ty).2.2.2.2.2.1 techn_type.NEON (by decide)⟩,
   (selector_resolution flagsAll u8ty).2.2.2.2.2.2.1⟩

/-- C6: the technique-to-string conversion returns the canonical name
exactly when the technique's capability is compiled in and `"Scalar"` for
every unrecognized or unavailable value; its result is always one of the
canonical names. -/
theorem technt2string_canonical (f : Flags) (tech : techn_type) :
    technt2string f tech =
      (if specTechAvailable f tech then specTechName tech else "Scalar") ∧
    technt2string f tech ∈
      ["Scalar", "MMX", "SSE", "AVX", "AVX512", "NEON", "OpenCL", "Vulkan"] := by
  cases tech <;>
    simp only [technt2string, specTechAvailable, specTechName] <;>
    split_ifs <;> simp

/-- C7: for every adaptive value holding v strictly inside the bound
width's representable range, one increment followed by one decrement (each
delegating to the bound backend's add/sub with a literal 1 operand)
restores the value v, whatever technique the value is bound to. -/
theorem inc_dec_roundtrip (f : Flags) (t : Ty) (tech : techn_type) (v : Int)
    (h : t.bytes = 1 ∨ t.bytes = 2 ∨ t.bytes = 4 ∨ t.bytes = 8)
    (h1 : repMin t < v) (h2 : v < repMax t) :
    ((adn_dec f ((adn_inc f (⟨v⟩ : adaptive_number t tech)).1)).1).m_tiValue = v := by
  have hb : t.bytes ≠ 0 := by rcases h with h | h | h | h <;> omega
  simp only [adn_inc, adn_dec]
  rw [backend_add_wrap _ t h, backend_sub_wrap _ t h,
    wrap_eq_of_range t (v + 1) hb (by omega) (by omega),
    show v + 1 - 1 = v by ring,
    wrap_eq_of_range t v hb (le_of_lt h1) (le_of_lt h2)]

/-- Witness for C7: an 8-bit signed value of 5 bound to the MMX technique
survives one increment and one decrement. -/
theorem inc_dec_roundtrip_witness :
    (i8ty.bytes = 1 ∨ i8ty.bytes = 2 ∨ i8ty.bytes = 4 ∨ i8ty.bytes = 8) ∧
    repMin i8ty < 5 ∧ (5 : Int) < repMax i8ty ∧
    ((adn_dec flagsAll ((adn_inc flagsAll
      (⟨5⟩ : adaptive_number i8ty techn_type.MMX)).1)).1).m_tiValue = 5 :=
  ⟨Or.inl rfl, by decide, by decide,
   inc_dec_roundtrip flagsAll i8ty techn_type.MMX 5 (Or.inl rfl)
     (by decide) (by decide)⟩

/-- C8: after `x.set(v)`, `x.value()` returns v, and the compile-time
technique binding reported by `get_techniq()` is unchanged.  This holds of
the intended setter modelled by `adn_set`; the source's own `set` is a
`const` member function assigning the non-`mutable` `m_tiValue`, so every
actual call is ill-formed and the program as written has no `set` behavior
at all — a code bug in `set`, not a defect of the claim. -/
theorem set_value_frame (t : Ty) (tech : techn_type)
    (x : adaptive_number t tech) (v : Int) :
    adn_value (adn_set x v) = v ∧
    adn_get_techniq (adn_set x v) = adn_get_techniq x :=
  ⟨rfl, rfl⟩

/-- C9: for every integer type whose size is not 1, 2, 4 or 8 bytes, the
SSE backend's add and sub and the AVX backend's add return the
zero-initialized result for every input pair, while the MMX backend falls
back to scalar arithmetic through its trailing `else` branch. -/
theorem vector_zero_on_unhandled_widths (t : Ty)
    (h : ¬(t.bytes = 1 ∨ t.bytes = 2 ∨ t.bytes = 4 ∨ t.bytes = 8)) (a b : Int) :
    sse_add t a b = 0 ∧ sse_sub t a b = 0 ∧ avx_add t a b = 0 ∧
    mmx_add t a b = scalar_add t a b ∧ mmx_sub t a b = scalar_sub t a b := by
  push_neg at h
  obtain ⟨h1, h2, h3, h4⟩ := h
  refine ⟨?_, ?_, ?_, mmx_add_eq_scalar t a b, mmx_sub_eq_scalar t a b⟩ <;>
    simp [sse_add, sse_sub, avx_add, h1, h2, h3, h4]

/-- Witness for C9 at a hypothetical 3-byte width. -/
theorem vector_zero_on_unhandled_widths_witness :
    ¬((⟨3, false⟩ : Ty).bytes = 1 ∨ (⟨3, false⟩ : Ty).bytes = 2 ∨
      (⟨3, false⟩ : Ty).bytes = 4 ∨ (⟨3, false⟩ : Ty).bytes = 8) ∧
    (sse_add ⟨3, false⟩ 1000 1 = 0 ∧ sse_sub ⟨3, false⟩ 1000 1 = 0 ∧
      avx_add ⟨3, false⟩ 1000 1 = 0 ∧
      mmx_add ⟨3, false⟩ 1000 1 = scalar_add ⟨3, false⟩ 1000 1 ∧
      mmx_sub ⟨3, false⟩ 1000 1 = scalar_sub ⟨3, false⟩ 1000 1) :=
  ⟨by decide, vector_zero_on_unhandled_widths ⟨3, false⟩ (by decide) 1000 1⟩

/-- C10: the postfix increment and decrement operators mutate the held
value and return the already-updated value: the returned object holds
add(v, 1) (respectively sub(v, 1)), not the prior value v — concretely, a
held 0 increments to a returned 1 and a held 5 decrements to a returned 4. -/
theorem inc_dec_return_updated_value :
    (∀ (f : Flags) (t : Ty) (tech : techn_type) (x : adaptive_number t tech),
      ((adn_inc f x).2).m_tiValue =
        backend_add (technique_selector f t tech) t x.m_tiValue 1 ∧
      ((adn_dec f x).2).m_tiValue =
        backend_sub (technique_selector f t tech) t x.m_tiValue 1 ∧
      (adn_inc f x).2 = (adn_inc f x).1 ∧ (adn_dec f x).2 = (adn_dec f x).1) ∧
    ((adn_inc flagsAll
      (⟨0⟩ : adaptive_number u8ty techn_type.Scalar)).2).m_tiValue = 1 ∧
    ((adn_dec flagsAll
      (⟨5⟩ : adaptive_number u8ty techn_type.Scalar)).2).m_tiValue = 4 :=
  ⟨fun f t tech x => ⟨rfl, rfl, rfl, rfl⟩, by decide, by decide⟩

end Adaptive
